import Mathlib

/-!
Shallow embedding of the `tracingx` Go module (gostratum/tracingx).

Go maps with string keys are modelled as association lists together with
`mapGet` (lookup of the first matching entry) and `mapSet` (replace the
entry in place, or append a fresh one), which reproduces Go map
read/write semantics on lists whose keys are unique — and is stated in a
way that is also correct in the presence of duplicate keys.

Go `context.Context` is modelled as an immutable chain of key/value
pairs (`Ctx`), exactly the structure `context.WithValue` builds.  The
OpenTelemetry SDK is an external collaborator of the module; its
tracer, propagator and exporter are therefore modelled as parameters
(the fresh SDK span handed back by `tracer.Start`, the propagator
functions used by `Extract`/`Inject`), while everything the module
itself computes is translated from the source.
-/

namespace Tracingx

/-- Go map read: first entry with the given key (Go maps have unique keys). -/
def mapGet {α : Type} (m : List (String × α)) (k : String) : Option α :=
  (m.find? (fun p => p.1 == k)).map Prod.snd

/-- Go map write `m[k] = v`: replace the binding in place, or append a new one. -/
def mapSet {α : Type} (m : List (String × α)) (k : String) (v : α) :
    List (String × α) :=
  if m.any (fun p => p.1 == k) then
    m.map (fun p => if p.1 == k then (k, v) else p)
  else
    m ++ [(k, v)]

/-- Go `strings.Contains s pat`: `pat` occurs contiguously in `s`. -/
def strContains (s pat : String) : Bool :=
  decide (pat.data <:+: s.data)

/-- Dynamic Go values (`any`) as they are dispatched on by `toAttribute`
(src/provider_otlp.go:226-251).  A value of a dynamic type outside the ten
recognized ones is modelled by `other` carrying its `fmt.Sprintf("%v", value)`
rendering. -/
inductive GoVal where
  | str (s : String)
  | intV (n : Int)
  | int64V (n : Int)
  | float64V (x : Float)
  | boolV (b : Bool)
  | strSlice (xs : List String)
  | intSlice (xs : List Int)
  | int64Slice (xs : List Int)
  | float64Slice (xs : List Float)
  | boolSlice (xs : List Bool)
  | other (format : String)

/-- Values of OpenTelemetry attributes (`attribute.Value`).  The SDK stores
`int` attributes as 64-bit integers, hence there is no separate `int` arm. -/
inductive AttrVal where
  | stringV (s : String)
  | int64V (n : Int)
  | float64V (x : Float)
  | boolV (b : Bool)
  | stringSliceV (xs : List String)
  | int64SliceV (xs : List Int)
  | float64SliceV (xs : List Float)
  | boolSliceV (xs : List Bool)

/-- OpenTelemetry `attribute.KeyValue`. -/
structure KeyValue where
  key : String
  value : AttrVal

/-- SDK constructor `attribute.String`. -/
def attrString (k : String) (v : String) : KeyValue := ⟨k, .stringV v⟩

/-- SDK constructor `attribute.Int64`. -/
def attrInt64 (k : String) (v : Int) : KeyValue := ⟨k, .int64V v⟩

/-- SDK constructor `attribute.Int` (converts the `int` to `int64`). -/
def attrInt (k : String) (v : Int) : KeyValue := attrInt64 k v

/-- SDK constructor `attribute.Float64`. -/
def attrFloat64 (k : String) (v : Float) : KeyValue := ⟨k, .float64V v⟩

/-- SDK constructor `attribute.Bool`. -/
def attrBool (k : String) (v : Bool) : KeyValue := ⟨k, .boolV v⟩

/-- SDK constructor `attribute.StringSlice`. -/
def attrStringSlice (k : String) (v : List String) : KeyValue := ⟨k, .stringSliceV v⟩

/-- SDK constructor `attribute.IntSlice` (element-wise `int` to `int64`). -/
def attrIntSlice (k : String) (v : List Int) : KeyValue := ⟨k, .int64SliceV v⟩

/-- SDK constructor `attribute.Int64Slice`. -/
def attrInt64Slice (k : String) (v : List Int) : KeyValue := ⟨k, .int64SliceV v⟩

/-- SDK constructor `attribute.Float64Slice`. -/
def attrFloat64Slice (k : String) (v : List Float) : KeyValue := ⟨k, .float64SliceV v⟩

/-- SDK constructor `attribute.BoolSlice`. -/
def attrBoolSlice (k : String) (v : List Bool) : KeyValue := ⟨k, .boolSliceV v⟩

/-- `toAttribute` (src/provider_otlp.go:226-251): per-dynamic-type dispatch of a
Go value to the SDK's typed attribute; the default arm stringifies via
`fmt.Sprintf("%v", v)` — in this model, the rendering carried by `GoVal.other`. -/
def toAttribute (key : String) : GoVal → KeyValue
  | .str v => attrString key v
  | .intV v => attrInt key v
  | .int64V v => attrInt64 key v
  | .float64V v => attrFloat64 key v
  | .boolV v => attrBool key v
  | .strSlice v => attrStringSlice key v
  | .intSlice v => attrIntSlice key v
  | .int64Slice v => attrInt64Slice key v
  | .float64Slice v => attrFloat64Slice key v
  | .boolSlice v => attrBoolSlice key v
  | .other v => attrString key v

/-- `OTLPConfig` (src/config.go:32-41).  A Go `nil` headers map is `none`. -/
structure OTLPConfig where
  Endpoint : String
  Insecure : Bool
  Headers : Option (List (String × String))

/-- `JaegerConfig` (src/config.go:44-53); declared but not wired to a provider. -/
structure JaegerConfig where
  Endpoint : String
  AgentHost : String
  AgentPort : String

/-- `Config` (src/config.go:8-26). -/
structure Config where
  Enabled : Bool
  ServiceName : String
  ProviderName : String
  SampleRate : Float
  OTLP : OTLPConfig
  Jaeger : JaegerConfig

/-- Go `strings.ToLower` (character-wise lower-casing). -/
def goToLower (s : String) : String := ⟨s.data.map Char.toLower⟩

/-- The sensitivity test on a header key used by `Config.Sanitize`: the
lower-cased key contains one of the fixed substrings. -/
def isSensitiveHeaderKey (k : String) : Bool :=
  let lk := goToLower k
  strContains lk "token" || strContains lk "key" ||
    strContains lk "secret" || strContains lk "authorization"

/-- One entry of the sanitized header map built by `Config.Sanitize`. -/
def sanitizeHeaderEntry (p : String × String) : String × String :=
  if isSensitiveHeaderKey p.1 then (p.1, "[redacted]") else p

/-- `Config.Sanitize`: returns a copy whose OTLP header map is rebuilt
entry by entry, redacting values under sensitive keys; a `nil` header map is
left alone.  The loop writes only into the freshly made map `out.OTLP.Headers`,
so the receiver is untouched — which the purely functional translation makes
structural. -/
def Config.Sanitize (c : Config) : Config :=
  match c.OTLP.Headers with
  | none => c
  | some hs =>
    { c with OTLP := { c.OTLP with Headers := some (hs.map sanitizeHeaderEntry) } }

/-- Outcome of `loader.Bind(&cfg)` in `NewConfig`: on error, Go returns the
partially-bound `cfg` value together with the error. -/
inductive BindOutcome where
  | ok (cfg : Config)
  | failed (partial_ : Config) (e : String)

/-- `NewConfig` (src/config.go:56-62): binds the config and returns it
unchanged; a bind failure is passed through with the partial value. -/
def NewConfig : BindOutcome → Config × Option String
  | .ok cfg => (cfg, none)
  | .failed p e => (p, some e)

/-- Options handed to the OTLP gRPC exporter constructor by `newOTLPProvider`. -/
inductive OtlpGrpcOption where
  | withEndpoint (e : String)
  | withTLSInsecureCredentials
  | withHeaders (h : List (String × String))
deriving DecidableEq

/-- The exporter option list assembled by `newOTLPProvider`
(src/provider_otlp.go:32-42): the endpoint, then insecure credentials when
configured, then the configured headers when the header map is non-empty.
The headers are taken from the config as-is. -/
def otlpExporterOptions (config : Config) : List OtlpGrpcOption :=
  let opts := [OtlpGrpcOption.withEndpoint config.OTLP.Endpoint]
  let opts := if config.OTLP.Insecure then
      opts ++ [OtlpGrpcOption.withTLSInsecureCredentials]
    else opts
  if (config.OTLP.Headers.getD []).length > 0 then
    opts ++ [OtlpGrpcOption.withHeaders (config.OTLP.Headers.getD [])]
  else opts

/-- `SpanKind` (src/tracer.go:58-75). -/
inductive SpanKind where
  | internal
  | server
  | client
  | producer
  | consumer
deriving DecidableEq

/-- OpenTelemetry `trace.SpanKind` values targeted by the conversion switch in
`otlpProvider.Start`. -/
inductive OtelSpanKind where
  | internal
  | server
  | client
  | producer
  | consumer
deriving DecidableEq

/-- `SpanConfig` (src/tracer.go:51-55).  The attribute map may be Go-`nil`
(`none`); the timestamp is modelled as a `Nat` clock reading, `0` playing the
role of the zero `time.Time`. -/
structure SpanConfig where
  Kind : SpanKind
  Attributes : Option (List (String × GoVal))
  Timestamp : Nat

/-- `SpanOption` (src/tracer.go:48): a mutator of the span configuration. -/
def SpanOption : Type := SpanConfig → SpanConfig

/-- `WithSpanKind` (src/tracer.go:84-88). -/
def WithSpanKind (kind : SpanKind) : SpanOption :=
  fun c => { c with Kind := kind }

/-- `WithAttributes` (src/tracer.go:91-100): allocates the map when `nil`, then
writes every given entry into it. -/
def WithAttributes (attrs : List (String × GoVal)) : SpanOption :=
  fun c =>
    let base := match c.Attributes with
      | none => []
      | some m => m
    { c with Attributes := some (attrs.foldl (fun m kv => mapSet m kv.1 kv.2) base) }

/-- `WithTimestamp` (src/tracer.go:103-107). -/
def WithTimestamp (t : Nat) : SpanOption :=
  fun c => { c with Timestamp := t }

/-- `applySpanOptions` (src/tracer.go:110-120): default config (internal kind,
fresh empty attribute map, timestamp `time.Now()` = the `now` parameter), then
each option applied in call order. -/
def applySpanOptions (now : Nat) (opts : List SpanOption) : SpanConfig :=
  opts.foldl (fun config opt => opt config)
    { Kind := .internal, Attributes := some [], Timestamp := now }

/-- State of an SDK (`trace.Span`) span as far as the pass-through provider
forwards to it: identity plus everything the wrapper methods send down. -/
structure OtelSpan where
  traceID : String
  spanID : String
  ended : Bool
  attrs : List KeyValue
  events : List (String × List KeyValue)
  errorsRecorded : List (Option String)

/-- Context keys: the module's private `spanContextKey{}` (src/tracer.go:140),
the SDK's own current-span key, and arbitrary other keys. -/
inductive CtxKey where
  | spanContextKey
  | otelContextKey
  | userKey (n : Nat)
deriving DecidableEq

mutual

/-- Go `context.Context`: an immutable chain built by `context.WithValue`. -/
inductive Ctx where
  | background
  | withValue (parent : Ctx) (key : CtxKey) (val : CtxVal)

/-- Values stored in a context: a module `Span`, an SDK span, or anything else. -/
inductive CtxVal where
  | spanV (s : SpanV)
  | otelV (s : OtelSpan)
  | otherV (n : Nat)

/-- The module's `Span` values: `noopSpan` (src/provider_noop.go:33-35) holds
the context it was started from; `otlpSpan` (src/provider_otlp.go:187-190)
holds the SDK span and the context returned by the SDK's `tracer.Start`. -/
inductive SpanV where
  | noopSpan (ctx : Ctx)
  | otlpSpan (span : OtelSpan) (ctx : Ctx)

end

/-- `ctx.Value(key)`: walk the chain outward, returning the nearest entry. -/
def Ctx.value : Ctx → CtxKey → Option CtxVal
  | .background, _ => none
  | .withValue parent k v, k2 => if k2 = k then some v else parent.value k2

/-- `ContextWithSpan` (src/tracer.go:136-138). -/
def ContextWithSpan (ctx : Ctx) (span : SpanV) : Ctx :=
  .withValue ctx .spanContextKey (.spanV span)

/-- `SpanFromContext` (src/tracer.go:128-133): the value under
`spanContextKey{}` when it is a `Span`, else `nil`. -/
def SpanFromContext (ctx : Ctx) : Option SpanV :=
  match ctx.value .spanContextKey with
  | some (.spanV s) => some s
  | _ => none

/-- `Span.End`: no-op on a noop span; forwards to the SDK span otherwise. -/
def SpanV.End : SpanV → SpanV
  | .noopSpan c => .noopSpan c
  | .otlpSpan os c => .otlpSpan { os with ended := true } c

/-- `Span.SetTag`: no-op on a noop span; converts and forwards otherwise. -/
def SpanV.SetTag (s : SpanV) (key : String) (value : GoVal) : SpanV :=
  match s with
  | .noopSpan c => .noopSpan c
  | .otlpSpan os c => .otlpSpan { os with attrs := os.attrs ++ [toAttribute key value] } c

/-- `Span.SetError`: no-op on a noop span; records the error and sets the
boolean `error` attribute otherwise. -/
def SpanV.SetError (s : SpanV) (err : Option String) : SpanV :=
  match s with
  | .noopSpan c => .noopSpan c
  | .otlpSpan os c =>
    .otlpSpan { os with
      errorsRecorded := os.errorsRecorded ++ [err],
      attrs := os.attrs ++ [attrBool "error" true] } c

/-- `Field` (src/tracer.go:78-81). -/
structure Field where
  key : String
  value : GoVal

/-- `Span.LogFields`: no-op on a noop span; one `log` event holding every
converted field otherwise. -/
def SpanV.LogFields (s : SpanV) (fields : List Field) : SpanV :=
  match s with
  | .noopSpan c => .noopSpan c
  | .otlpSpan os c =>
    .otlpSpan { os with
      events := os.events ++ [("log", fields.map (fun f => toAttribute f.key f.value))] } c

/-- `Span.Context`: the context stored in the span value
(src/provider_noop.go:41, src/provider_otlp.go:213-215). -/
def SpanV.Context : SpanV → Ctx
  | .noopSpan c => c
  | .otlpSpan _ c => c

/-- `Span.TraceID` (empty for noop spans). -/
def SpanV.TraceID : SpanV → String
  | .noopSpan _ => ""
  | .otlpSpan os _ => os.traceID

/-- `Span.SpanID` (empty for noop spans). -/
def SpanV.SpanID : SpanV → String
  | .noopSpan _ => ""
  | .otlpSpan os _ => os.spanID

/-- Carrier values accepted by `Extract`/`Inject` (`carrier any`): the SDK's
native `propagation.TextMapCarrier`, `map[string]string`,
`map[string][]string`, or a value of any other dynamic type, carried with the
rendering of its type (`%T`). -/
inductive Carrier where
  | textMap (m : List (String × String))
  | mapSS (m : List (String × String))
  | mapSLS (m : List (String × List String))
  | other (typeName : String)

/-- `noopProvider.Start` (src/provider_noop.go:15-18): wrap the incoming
context in a noop span and attach that span to the context. -/
def noopProvider.Start (ctx : Ctx) (operationName : String) (opts : List SpanOption) :
    Ctx × SpanV :=
  let span := SpanV.noopSpan ctx
  (ContextWithSpan ctx span, span)

/-- `noopProvider.Extract` (src/provider_noop.go:20-22). -/
def noopProvider.Extract (ctx : Ctx) (carrier : Carrier) : Ctx × Option String :=
  (ctx, none)

/-- `noopProvider.Inject` (src/provider_noop.go:24-26); the carrier post-state
is returned to make "the carrier is untouched" expressible. -/
def noopProvider.Inject (ctx : Ctx) (carrier : Carrier) : Carrier × Option String :=
  (carrier, none)

/-- `noopProvider.Shutdown` (src/provider_noop.go:28-30). -/
def noopProvider.Shutdown (ctx : Ctx) : Option String :=
  none

/-- The span-kind conversion switch of `otlpProvider.Start`
(src/provider_otlp.go:95-109). -/
def toOtelSpanKind : SpanKind → OtelSpanKind
  | .internal => .internal
  | .server => .server
  | .client => .client
  | .producer => .producer
  | .consumer => .consumer

/-- SDK span-start options assembled by `otlpProvider.Start`. -/
inductive OtelSpanStartOption where
  | withSpanKind (k : OtelSpanKind)
  | withAttributes (attrs : List KeyValue)
  | withTimestamp (t : Nat)

/-- The SDK's `tracer.Start`: an external collaborator, modelled by the fresh
SDK span `os` it mints; it returns a context extended with its own
current-span entry (under the SDK's key, not the module's) and that span. -/
def otelTracerStart (os : OtelSpan) (ctx : Ctx) (operationName : String)
    (spanOpts : List OtelSpanStartOption) : Ctx × OtelSpan :=
  (.withValue ctx .otelContextKey (.otelV os), os)

/-- `otlpProvider.Start` (src/provider_otlp.go:91-135): build the span config,
convert kind and attributes, forward to the SDK's `tracer.Start` (with the
explicit timestamp only when non-zero), then wrap the SDK span and attach the
wrapper to the SDK-returned context.  `os` is the fresh span minted by the
SDK; `now` the clock reading used by `applySpanOptions`. -/
def otlpProvider.Start (os : OtelSpan) (now : Nat) (ctx : Ctx)
    (operationName : String) (opts : List SpanOption) : Ctx × SpanV :=
  let config := applySpanOptions now opts
  let otelKind := toOtelSpanKind config.Kind
  let attrs := (config.Attributes.getD []).map (fun kv => toAttribute kv.1 kv.2)
  let spanOpts := [OtelSpanStartOption.withSpanKind otelKind,
                   OtelSpanStartOption.withAttributes attrs]
  let spanOpts := if config.Timestamp ≠ 0 then
      spanOpts ++ [OtelSpanStartOption.withTimestamp config.Timestamp]
    else spanOpts
  let started := otelTracerStart os ctx operationName spanOpts
  let span := SpanV.otlpSpan started.2 started.1
  (ContextWithSpan started.1 span, span)

/-- The `propagation.TextMapCarrier` value handed to the global propagator
after the carrier type switch: the native carrier itself, a
`propagation.MapCarrier`, or a `headerCarrier` wrapper. -/
inductive TextMapCarrierV where
  | native (m : List (String × String))
  | mapCarrier (m : List (String × String))
  | header (m : List (String × List String))

/-- `otlpProvider.Extract` (src/provider_otlp.go:138-155): dispatch on the
carrier's dynamic type, delegating supported shapes to the global propagator
`prop`; any other type yields the input context and an error naming the type. -/
def otlpProvider.Extract (prop : Ctx → TextMapCarrierV → Ctx) (ctx : Ctx)
    (carrier : Carrier) : Ctx × Option String :=
  match carrier with
  | .textMap m => (prop ctx (.native m), none)
  | .mapSS m => (prop ctx (.mapCarrier m), none)
  | .mapSLS m => (prop ctx (.header m), none)
  | .other typeName => (ctx, some ("unsupported carrier type: " ++ typeName))

/-- `otlpProvider.Inject` (src/provider_otlp.go:158-176): same dispatch; the
propagator `prop` writes into the carrier (returned as post-state); any other
type yields an error naming the type and leaves the carrier alone. -/
def otlpProvider.Inject (prop : Ctx → TextMapCarrierV → TextMapCarrierV)
    (ctx : Ctx) (carrier : Carrier) : TextMapCarrierV × Option String :=
  match carrier with
  | .textMap m => (prop ctx (.native m), none)
  | .mapSS m => (prop ctx (.mapCarrier m), none)
  | .mapSLS m => (prop ctx (.header m), none)
  | .other typeName => (.native [], some ("unsupported carrier type: " ++ typeName))

/-- `headerCarrier` (src/provider_otlp.go:254-256). -/
structure headerCarrier where
  headers : List (String × List String)

/-- `headerCarrier.Get` (src/provider_otlp.go:258-263): the first element of
the key's list when present and non-empty, else the empty string. -/
def headerCarrier.Get (c : headerCarrier) (key : String) : String :=
  match mapGet c.headers key with
  | some (v :: _) => v
  | some [] => ""
  | none => ""

/-- `headerCarrier.Set` (src/provider_otlp.go:265-267): replace the key's
whole list with the one-element list. -/
def headerCarrier.Set (c : headerCarrier) (key value : String) : headerCarrier :=
  ⟨mapSet c.headers key [value]⟩

/-- `headerCarrier.Keys` (src/provider_otlp.go:269-275). -/
def headerCarrier.Keys (c : headerCarrier) : List String :=
  c.headers.map Prod.fst

/-- A leveled log record emitted through the `logx.Logger`. -/
inductive LogEvent where
  | info (msg : String) (fields : List (String × String))
  | warn (msg : String) (fields : List (String × String))

/-- The provider value selected by `NewTracer`: the noop provider, or an OTLP
provider characterized by the config it was built from. -/
inductive ProviderV where
  | noop
  | otlp (config : Config)

/-- `Result` of the module (module.go): the tracer and provider outputs; the
zero value of the struct has both `nil` (`none`). -/
structure ResultS where
  Tracer : Option ProviderV
  Provider : Option ProviderV

/-- Outcome of `newOTLPProvider(config, logger)`: the SDK exporter and
resource constructors are external, so the outcome is a parameter — success
yields the provider built from this config, failure the wrapped error. -/
inductive OtlpNewOutcome where
  | ok
  | failed (e : String)

/-- `NewTracer` (module.go, packed after src/provider_otlp_test.go:383-414):
disabled configs take the noop provider with an info log; enabled configs
switch on the provider name — `"otlp"` builds the OTLP provider (outcome
`otlpNew`) and surfaces its error with an empty `Result`, `"noop"` takes the
noop provider, anything else takes the noop provider after a warning naming
the provider.  Returns (result, error, log records emitted here). -/
def NewTracer (cfg : Config) (otlpNew : OtlpNewOutcome) :
    ResultS × Option String × List LogEvent :=
  if cfg.Enabled = false then
    ({ Tracer := some .noop, Provider := some .noop }, none,
      [.info "tracing is disabled, using noop tracer" []])
  else
    let branch : Option ProviderV × Option String × List LogEvent :=
      if cfg.ProviderName = "otlp" then
        match otlpNew with
        | .ok => (some (.otlp cfg), none, [])
        | .failed e => (none, some e, [])
      else if cfg.ProviderName = "noop" then
        (some .noop, none, [])
      else
        (some .noop, none,
          [.warn "unknown tracing provider, using noop" [("provider", cfg.ProviderName)]])
    match branch with
    | (_, some e, logs) => ({ Tracer := none, Provider := none }, some e, logs)
    | (p, none, logs) => ({ Tracer := p, Provider := p }, none, logs)

/-- The last binding for `k` in an entry list: the first match in the
reversed list.  This is the value a sequence of Go map writes leaves behind. -/
def lastGet {α : Type} (l : List (String × α)) (k : String) : Option α :=
  mapGet l.reverse k

mutual

/-- Structural size of a context chain (keys not counted). -/
def Ctx.size : Ctx → Nat
  | .background => 1
  | .withValue parent _ v => 1 + parent.size + v.size

/-- Structural size of a stored context value. -/
def CtxVal.size : CtxVal → Nat
  | .spanV s => 1 + s.size
  | .otelV _ => 1
  | .otherV _ => 1

/-- Structural size of a span value. -/
def SpanV.size : SpanV → Nat
  | .noopSpan c => 1 + c.size
  | .otlpSpan _ c => 1 + c.size

end

/-! ## Map helper lemmas -/

theorem mapGet_cons {α : Type} (p : String × α) (t : List (String × α)) (k : String) :
    mapGet (p :: t) k = if p.1 == k then some p.2 else mapGet t k := by
  by_cases h : p.1 == k <;> simp [mapGet, List.find?_cons, h]

theorem mapGet_append {α : Type} (l1 l2 : List (String × α)) (k : String) :
    mapGet (l1 ++ l2) k =
      match mapGet l1 k with
      | some v => some v
      | none => mapGet l2 k := by
  induction l1 with
  | nil => simp [mapGet]
  | cons p t ih =>
    rw [List.cons_append, mapGet_cons, mapGet_cons]
    by_cases h : p.1 == k <;> simp [h, ih]

theorem mapGet_map_replace {α : Type} (m : List (String × α)) (k : String) (v : α)
    (h : m.any (fun p => p.1 == k) = true) :
    mapGet (m.map (fun p => if p.1 == k then (k, v) else p)) k = some v := by
  induction m with
  | nil => simp at h
  | cons p t ih =>
    rw [List.map_cons, mapGet_cons]
    by_cases hp : p.1 == k
    · simp [hp]
    · have h1 : (if p.1 == k then (k, v) else p) = p := if_neg hp
      rw [h1, if_neg hp]
      simp only [List.any_cons, Bool.or_eq_true] at h
      rcases h with h | h
      · exact absurd h hp
      · exact ih h

theorem mapGet_map_replace_ne {α : Type} (m : List (String × α)) (k : String) (v : α)
    (k2 : String) (hne : k2 ≠ k) :
    mapGet (m.map (fun p => if p.1 == k then (k, v) else p)) k2 = mapGet m k2 := by
  induction m with
  | nil => rfl
  | cons p t ih =>
    rw [List.map_cons, mapGet_cons, mapGet_cons]
    by_cases hp : p.1 == k
    · have hp1 : p.1 = k := by simpa using hp
      have h1 : ((if p.1 == k then (k, v) else p).1 == k2) = false := by
        simp [hp, Ne.symm hne]
      have h2 : (p.1 == k2) = false := by
        simp [hp1, Ne.symm hne]
      rw [h1, h2]
      simpa using ih
    · have h1 : (if p.1 == k then (k, v) else p) = p := if_neg hp
      rw [h1]
      by_cases hq : p.1 == k2
      · rw [if_pos hq, if_pos hq]
      · rw [if_neg hq, if_neg hq]
        exact ih

theorem mapGet_eq_none_of_no_key {α : Type} (m : List (String × α)) (k : String)
    (h : ¬ (m.any (fun p => p.1 == k) = true)) :
    mapGet m k = none := by
  have hfind : m.find? (fun p => p.1 == k) = none := by
    rw [List.find?_eq_none]
    intro p hp hc
    exact absurd (List.any_eq_true.mpr ⟨p, hp, hc⟩) h
  simp [mapGet, hfind]

theorem mapGet_mapSet_self {α : Type} (m : List (String × α)) (k : String) (v : α) :
    mapGet (mapSet m k v) k = some v := by
  unfold mapSet
  by_cases h : m.any (fun p => p.1 == k)
  · rw [if_pos h]
    exact mapGet_map_replace m k v h
  · rw [if_neg h, mapGet_append, mapGet_eq_none_of_no_key m k h]
    simp [mapGet_cons]

theorem mapGet_mapSet_ne {α : Type} (m : List (String × α)) (k : String) (v : α)
    (k2 : String) (hne : k2 ≠ k) :
    mapGet (mapSet m k v) k2 = mapGet m k2 := by
  unfold mapSet
  by_cases h : m.any (fun p => p.1 == k)
  · rw [if_pos h]
    exact mapGet_map_replace_ne m k v k2 hne
  · rw [if_neg h, mapGet_append]
    cases hm : mapGet m k2 with
    | some v2 => rfl
    | none => simp [mapGet_cons, mapGet, Ne.symm hne]

theorem mapGet_foldl_mapSet {α : Type} (l : List (String × α))
    (base : List (String × α)) (k : String) :
    mapGet (l.foldl (fun m kv => mapSet m kv.1 kv.2) base) k =
      match lastGet l k with
      | some v => some v
      | none => mapGet base k := by
  induction l generalizing base with
  | nil => simp [lastGet, mapGet]
  | cons kv t ih =>
    rw [List.foldl_cons, ih]
    have hrev : lastGet (kv :: t) k =
        match lastGet t k with
        | some v => some v
        | none => mapGet [kv] k := by
      unfold lastGet
      rw [List.reverse_cons, mapGet_append]
    rw [hrev]
    cases hl : lastGet t k with
    | some v => rfl
    | none =>
      by_cases hk : kv.1 == k
      · have hk1 : kv.1 = k := by simpa using hk
        rw [mapGet_cons, if_pos hk, ← hk1, mapGet_mapSet_self]
      · have hk1 : k ≠ kv.1 := fun h => hk (by simp [h])
        rw [mapGet_cons, if_neg hk, mapGet_mapSet_ne _ _ _ _ hk1]
        simp [mapGet]

theorem mapGet_map_sanitize (hs : List (String × String)) (k : String) :
    mapGet (hs.map sanitizeHeaderEntry) k =
      (mapGet hs k).map (fun v => if isSensitiveHeaderKey k then "[redacted]" else v) := by
  induction hs with
  | nil => rfl
  | cons p t ih =>
    rw [List.map_cons, mapGet_cons, mapGet_cons]
    have hkey : (sanitizeHeaderEntry p).1 = p.1 := by
      unfold sanitizeHeaderEntry
      by_cases hsen : isSensitiveHeaderKey p.1 <;> simp [hsen]
    by_cases hp : p.1 == k
    · have hp1 : p.1 = k := by simpa using hp
      have hg : ((sanitizeHeaderEntry p).1 == k) = true := by
        simp [hkey, hp1]
      rw [if_pos hg, if_pos hp]
      unfold sanitizeHeaderEntry
      by_cases hsen : isSensitiveHeaderKey p.1 <;> simp [hsen, hp1] <;> rw [← hp1] <;> simp [hsen]
    · have hg : ((sanitizeHeaderEntry p).1 == k) = false := by
        rw [hkey]
        simpa using hp
      rw [if_neg (by simp [hg]), if_neg hp]
      exact ih

theorem mem_map_fst_iff_mapGet {α : Type} (m : List (String × α)) (k : String) :
    k ∈ m.map Prod.fst ↔ (mapGet m k).isSome := by
  induction m with
  | nil => simp [mapGet]
  | cons p t ih =>
    rw [List.map_cons, mapGet_cons]
    by_cases hp : p.1 == k
    · have hp1 : p.1 = k := by simpa using hp
      simp [hp, hp1]
    · have hp1 : ¬ (k = p.1) := fun h => hp (by simp [h])
      rw [if_neg hp]
      simp [List.mem_cons, hp1, ih]

/-! ## Context size lemmas -/

theorem Ctx.value_size_lt : ∀ (ctx : Ctx) (k : CtxKey) (v : CtxVal),
    ctx.value k = some v → CtxVal.size v < Ctx.size ctx
  | .background, _, _, h => by simp [Ctx.value] at h
  | .withValue p k2 v2, k, v, h => by
    unfold Ctx.value at h
    by_cases hk : k = k2
    · rw [if_pos hk] at h
      injection h with h
      subst h
      unfold Ctx.size
      omega
    · rw [if_neg hk] at h
      have ih := Ctx.value_size_lt p k v h
      unfold Ctx.size
      omega

theorem ContextWithSpan_ne (ctx : Ctx) (s : SpanV) : ContextWithSpan ctx s ≠ ctx := by
  intro h
  have hs := congrArg Ctx.size h
  rw [ContextWithSpan] at hs
  simp only [Ctx.size, CtxVal.size] at hs
  omega

theorem SpanFromContext_eq_value (ctx : Ctx) (s : SpanV)
    (h : SpanFromContext ctx = some s) :
    ctx.value .spanContextKey = some (.spanV s) := by
  unfold SpanFromContext at h
  cases hv : ctx.value .spanContextKey with
  | none => rw [hv] at h; cases h
  | some cv =>
    rw [hv] at h
    cases cv with
    | spanV s2 =>
      simp only [Option.some.injEq] at h
      rw [h]
    | otelV s2 => cases h
    | otherV n => cases h

theorem SpanFromContext_ne_noopSpan (ctx : Ctx) :
    SpanFromContext ctx ≠ some (SpanV.noopSpan ctx) := by
  intro h
  have hv := SpanFromContext_eq_value ctx _ h
  have hlt := Ctx.value_size_lt ctx _ _ hv
  unfold CtxVal.size SpanV.size at hlt
  omega

theorem SpanFromContext_ne_otlpSpan (ctx : Ctx) (os : OtelSpan) :
    SpanFromContext ctx ≠ some (SpanV.otlpSpan os ctx) := by
  intro h
  have hv := SpanFromContext_eq_value ctx _ h
  have hlt := Ctx.value_size_lt ctx _ _ hv
  unfold CtxVal.size SpanV.size at hlt
  omega

theorem SpanFromContext_withValue_ne (ctx : Ctx) (k : CtxKey) (v : CtxVal)
    (hk : k ≠ .spanContextKey) :
    SpanFromContext (.withValue ctx k v) = SpanFromContext ctx := by
  unfold SpanFromContext
  have hval : Ctx.value (.withValue ctx k v) .spanContextKey = ctx.value .spanContextKey := by
    simp only [Ctx.value]
    rw [if_neg (Ne.symm hk)]
  rw [hval]

/-! ## Claim theorems -/

/-- C3: `toAttribute(key, value)` yields an attribute whose key is the input
key, dispatching on the value's dynamic type: string, int, int64, float64,
bool and homogeneous slices of each go to the SDK's corresponding typed
attribute with the same value (int and int slices widened to int64 by the
SDK constructors); every other type becomes a string attribute holding the
value's default `%v` formatting. -/
theorem toAttribute_dispatch (key : String) (v : GoVal) :
    (toAttribute key v).key = key ∧
    (∀ s, toAttribute key (.str s) = ⟨key, .stringV s⟩) ∧
    (∀ n, toAttribute key (.intV n) = ⟨key, .int64V n⟩) ∧
    (∀ n, toAttribute key (.int64V n) = ⟨key, .int64V n⟩) ∧
    (∀ x, toAttribute key (.float64V x) = ⟨key, .float64V x⟩) ∧
    (∀ b, toAttribute key (.boolV b) = ⟨key, .boolV b⟩) ∧
    (∀ xs, toAttribute key (.strSlice xs) = ⟨key, .stringSliceV xs⟩) ∧
    (∀ xs, toAttribute key (.intSlice xs) = ⟨key, .int64SliceV xs⟩) ∧
    (∀ xs, toAttribute key (.int64Slice xs) = ⟨key, .int64SliceV xs⟩) ∧
    (∀ xs, toAttribute key (.float64Slice xs) = ⟨key, .float64SliceV xs⟩) ∧
    (∀ xs, toAttribute key (.boolSlice xs) = ⟨key, .boolSliceV xs⟩) ∧
    (∀ r, toAttribute key (.other r) = ⟨key, .stringV r⟩) := by
  refine ⟨?_, fun s => rfl, fun n => rfl, fun n => rfl, fun x => rfl, fun b => rfl,
    fun xs => rfl, fun xs => rfl, fun xs => rfl, fun xs => rfl, fun xs => rfl,
    fun r => rfl⟩
  cases v <;> rfl

/-- C2: the no-op provider, on every input: `Start` returns the input context
with the new span attached together with that span; `End`, `SetTag`,
`SetError` and `LogFields` leave a noop span unchanged and cannot fail;
`TraceID` and `SpanID` are the empty string; `Extract` returns exactly the
input context and no error for every carrier; `Inject` returns no error and
leaves every carrier unmodified; `Shutdown` returns no error. -/
theorem noop_provider_contract (ctx : Ctx) (name : String)
    (opts : List SpanOption) (carrier : Carrier) :
    (noopProvider.Start ctx name opts =
      (ContextWithSpan ctx (.noopSpan ctx), .noopSpan ctx)) ∧
    (SpanFromContext (noopProvider.Start ctx name opts).1 =
      some (noopProvider.Start ctx name opts).2) ∧
    ((SpanV.noopSpan ctx).End = .noopSpan ctx) ∧
    (∀ k v, (SpanV.noopSpan ctx).SetTag k v = .noopSpan ctx) ∧
    (∀ e, (SpanV.noopSpan ctx).SetError e = .noopSpan ctx) ∧
    (∀ fs, (SpanV.noopSpan ctx).LogFields fs = .noopSpan ctx) ∧
    ((SpanV.noopSpan ctx).TraceID = "") ∧
    ((SpanV.noopSpan ctx).SpanID = "") ∧
    (noopProvider.Extract ctx carrier = (ctx, none)) ∧
    (noopProvider.Inject ctx carrier = (carrier, none)) ∧
    (noopProvider.Shutdown ctx = none) := by
  refine ⟨rfl, ?_, rfl, fun k v => rfl, fun e => rfl, fun fs => rfl, rfl, rfl,
    rfl, rfl, rfl⟩
  simp [noopProvider.Start, SpanFromContext, ContextWithSpan, Ctx.value]

/-- C6: the pass-through provider's `Extract` and `Inject` accept exactly the
SDK's native carrier, `map[string]string` and `map[string][]string`
(returning no error of this layer, delegating to the global propagator); any
other carrier type fails with an unsupported-carrier-type error naming the
concrete type, with `Extract` additionally returning the input context
unchanged. -/
theorem otlp_carrier_dispatch (propE : Ctx → TextMapCarrierV → Ctx)
    (propI : Ctx → TextMapCarrierV → TextMapCarrierV) (ctx : Ctx)
    (m ms : List (String × String)) (mls : List (String × List String))
    (tn : String) :
    (otlpProvider.Extract propE ctx (.textMap m) = (propE ctx (.native m), none)) ∧
    (otlpProvider.Extract propE ctx (.mapSS ms) = (propE ctx (.mapCarrier ms), none)) ∧
    (otlpProvider.Extract propE ctx (.mapSLS mls) = (propE ctx (.header mls), none)) ∧
    (otlpProvider.Extract propE ctx (.other tn) =
      (ctx, some ("unsupported carrier type: " ++ tn))) ∧
    (otlpProvider.Inject propI ctx (.textMap m) = (propI ctx (.native m), none)) ∧
    (otlpProvider.Inject propI ctx (.mapSS ms) = (propI ctx (.mapCarrier ms), none)) ∧
    (otlpProvider.Inject propI ctx (.mapSLS mls) = (propI ctx (.header mls), none)) ∧
    ((otlpProvider.Inject propI ctx (.other tn)).2 =
      some ("unsupported carrier type: " ++ tn)) :=
  ⟨rfl, rfl, rfl, rfl, rfl, rfl, rfl, rfl⟩

/-- C5: `SpanFromContext (ContextWithSpan ctx s) = s` for every context and
span; `SpanFromContext` is `nil` on a context with no attached span; every
context produced by `Start` yields exactly the new span on lookup; and
attaching a child span shadows but does not remove the parent context's own
association. -/
theorem span_context_roundtrip (ctx : Ctx) (s s2 : SpanV) :
    (SpanFromContext (ContextWithSpan ctx s) = some s) ∧
    (ctx.value .spanContextKey = none → SpanFromContext ctx = none) ∧
    (∀ name opts, SpanFromContext (noopProvider.Start ctx name opts).1 =
      some (noopProvider.Start ctx name opts).2) ∧
    (SpanFromContext (ContextWithSpan (ContextWithSpan ctx s) s2) = some s2) ∧
    (SpanFromContext (ContextWithSpan ctx s) = some s) := by
  refine ⟨?_, ?_, ?_, ?_, ?_⟩
  · simp [SpanFromContext, ContextWithSpan, Ctx.value]
  · intro h
    unfold SpanFromContext
    rw [h]
  · intro name opts
    simp [noopProvider.Start, SpanFromContext, ContextWithSpan, Ctx.value]
  · simp [SpanFromContext, ContextWithSpan, Ctx.value]
  · simp [SpanFromContext, ContextWithSpan, Ctx.value]

/-- C5 witness: at the background context (which has no attached span) and a
concrete noop span, the round-trip yields the span and the bare lookup is
`nil`. -/
theorem span_context_roundtrip_witness :
    (SpanFromContext (ContextWithSpan .background (.noopSpan .background)) =
      some (.noopSpan .background)) ∧
    (SpanFromContext .background = none) := by
  have h := span_context_roundtrip .background (.noopSpan .background)
    (.noopSpan .background)
  exact ⟨h.1, h.2.1 rfl⟩

/-- C8: the `headerCarrier` shim: `Get` returns the first element of the
key's value list and the empty string when the key is absent or its list is
empty; `Set` replaces the key's whole value list with the one-element list
(leaving other keys alone); `Keys` returns exactly the keys of the
underlying map. -/
theorem headerCarrier_shim (c : headerCarrier) (key value : String) :
    (∀ v rest, mapGet c.headers key = some (v :: rest) → c.Get key = v) ∧
    (mapGet c.headers key = none → c.Get key = "") ∧
    (mapGet c.headers key = some [] → c.Get key = "") ∧
    (mapGet (c.Set key value).headers key = some [value]) ∧
    (∀ k2, k2 ≠ key → mapGet (c.Set key value).headers k2 = mapGet c.headers k2) ∧
    (∀ k, k ∈ c.Keys ↔ (mapGet c.headers k).isSome) := by
  refine ⟨?_, ?_, ?_, ?_, ?_, ?_⟩
  · intro v rest h
    unfold headerCarrier.Get
    rw [h]
  · intro h
    unfold headerCarrier.Get
    rw [h]
  · intro h
    unfold headerCarrier.Get
    rw [h]
  · exact mapGet_mapSet_self c.headers key [value]
  · intro k2 h2
    exact mapGet_mapSet_ne c.headers key [value] k2 h2
  · intro k
    exact mem_map_fst_iff_mapGet c.headers k

/-- C8 witness: on the carrier mapping `"k"` to `["a","b"]`, `Get` returns
`"a"`; after `Set "k" "z"` the list for `"k"` is exactly `["z"]`; and the
key set is recovered by lookup. -/
theorem headerCarrier_shim_witness :
    (headerCarrier.Get ⟨[("k", ["a", "b"])]⟩ "k" = "a") ∧
    (mapGet (headerCarrier.Set ⟨[("k", ["a", "b"])]⟩ "k" "z").headers "k" =
      some ["z"]) ∧
    ("k" ∈ headerCarrier.Keys ⟨[("k", ["a", "b"])]⟩ ↔
      (mapGet ([("k", ["a", "b"])] : List (String × List String)) "k").isSome) := by
  have h := headerCarrier_shim ⟨[("k", ["a", "b"])]⟩ "k" "z"
  exact ⟨h.1 "a" ["b"] rfl, h.2.2.2.1, h.2.2.2.2.2 "k"⟩

/-- C7: `Config.Sanitize` returns a copy in which every OTLP header whose key
satisfies the sensitivity test (lower-cased key contains token/key/secret/
authorization) has its value replaced by the redaction marker while all other
entries keep their values, key for key; the key list is unchanged; and the
copy is built entry-wise from the original map, which the call leaves in
place in the receiver. -/
theorem config_sanitize_redacts (c : Config) (hs : List (String × String))
    (h : c.OTLP.Headers = some hs) :
    (c.Sanitize.OTLP.Headers = some (hs.map sanitizeHeaderEntry)) ∧
    (∀ k v, mapGet hs k = some v →
      mapGet (hs.map sanitizeHeaderEntry) k =
        some (if isSensitiveHeaderKey k then "[redacted]" else v)) ∧
    (∀ k, mapGet hs k = none → mapGet (hs.map sanitizeHeaderEntry) k = none) ∧
    ((hs.map sanitizeHeaderEntry).map Prod.fst = hs.map Prod.fst) ∧
    (c.OTLP.Headers = some hs) := by
  refine ⟨?_, ?_, ?_, ?_, h⟩
  · unfold Config.Sanitize
    rw [h]
  · intro k v hv
    rw [mapGet_map_sanitize, hv]
    rfl
  · intro k hv
    rw [mapGet_map_sanitize, hv]
    rfl
  · rw [List.map_map]
    apply List.map_congr_left
    intro p hp
    unfold sanitizeHeaderEntry
    by_cases hsen : isSensitiveHeaderKey p.1 <;> simp [hsen]

/-- C7 witness: sanitizing a config whose headers are
`api-key ↦ secret, x-plain ↦ value` yields
`api-key ↦ [redacted], x-plain ↦ value`, and the config still holds the
original map. -/
theorem config_sanitize_redacts_witness :
    ((Config.mk true "svc" "otlp" 1.0
        ⟨"localhost:4317", true, some [("api-key", "secret"), ("x-plain", "value")]⟩
        ⟨"e", "h", "p"⟩).Sanitize.OTLP.Headers =
      some [("api-key", "[redacted]"), ("x-plain", "value")]) ∧
    ((Config.mk true "svc" "otlp" 1.0
        ⟨"localhost:4317", true, some [("api-key", "secret"), ("x-plain", "value")]⟩
        ⟨"e", "h", "p"⟩).OTLP.Headers =
      some [("api-key", "secret"), ("x-plain", "value")]) := by
  have h := config_sanitize_redacts
    (Config.mk true "svc" "otlp" 1.0
      ⟨"localhost:4317", true, some [("api-key", "secret"), ("x-plain", "value")]⟩
      ⟨"e", "h", "p"⟩)
    [("api-key", "secret"), ("x-plain", "value")] rfl
  exact ⟨h.1.trans (by rfl), h.2.2.2.2⟩

/-- C9: `NewConfig` hands back the successfully bound configuration
unchanged — sanitization is not applied to it — and `newOTLPProvider` passes
the original, unredacted header map to the exporter options whenever it is
non-empty. -/
theorem newConfig_passthrough (cfg : Config) (hs : List (String × String))
    (h1 : cfg.OTLP.Headers = some hs) (h2 : hs ≠ []) :
    (NewConfig (.ok cfg) = (cfg, none)) ∧
    ((NewConfig (.ok cfg)).1.OTLP.Headers = some hs) ∧
    (OtlpGrpcOption.withHeaders hs ∈ otlpExporterOptions (NewConfig (.ok cfg)).1) := by
  refine ⟨rfl, h1, ?_⟩
  have hlen : 0 < hs.length := List.length_pos.mpr h2
  show OtlpGrpcOption.withHeaders hs ∈ otlpExporterOptions cfg
  by_cases hi : cfg.OTLP.Insecure <;>
    simp [otlpExporterOptions, h1, hi, hlen]

/-- C9 witness: for a config carrying the single (sensitive-keyed) header
`api-key ↦ secret`, `NewConfig` returns it untouched and the exporter options
carry the original value, not the redacted one. -/
theorem newConfig_passthrough_witness :
    (NewConfig (.ok (Config.mk true "svc" "otlp" 1.0
        ⟨"localhost:4317", true, some [("api-key", "secret")]⟩ ⟨"e", "h", "p"⟩)) =
      ((Config.mk true "svc" "otlp" 1.0
        ⟨"localhost:4317", true, some [("api-key", "secret")]⟩ ⟨"e", "h", "p"⟩), none)) ∧
    (OtlpGrpcOption.withHeaders [("api-key", "secret")] ∈
      otlpExporterOptions (Config.mk true "svc" "otlp" 1.0
        ⟨"localhost:4317", true, some [("api-key", "secret")]⟩ ⟨"e", "h", "p"⟩)) := by
  have h := newConfig_passthrough
    (Config.mk true "svc" "otlp" 1.0
      ⟨"localhost:4317", true, some [("api-key", "secret")]⟩ ⟨"e", "h", "p"⟩)
    [("api-key", "secret")] rfl (by simp)
  exact ⟨h.1, h.2.2⟩

/-- C4: `applySpanOptions` starts from the default configuration (internal
kind, a non-nil empty attribute map, timestamp = the current clock reading,
hence non-zero) and applies each option in call order, so the last-applied
option wins per field and a later attribute entry overwrites an earlier one
for the same key; zero options yield exactly the default. -/
theorem applySpanOptions_builder (now : Nat) (hnow : now ≠ 0)
    (opts : List SpanOption) :
    (applySpanOptions now [] =
      { Kind := .internal, Attributes := some [], Timestamp := now }) ∧
    ((applySpanOptions now []).Attributes = some []) ∧
    ((applySpanOptions now []).Timestamp ≠ 0) ∧
    (∀ o : SpanOption, applySpanOptions now (opts ++ [o]) =
      o (applySpanOptions now opts)) ∧
    (∀ k, (applySpanOptions now (opts ++ [WithSpanKind k])).Kind = k) ∧
    (∀ t, (applySpanOptions now (opts ++ [WithTimestamp t])).Timestamp = t) ∧
    (∀ attrs k v, lastGet attrs k = some v →
      (applySpanOptions now (opts ++ [WithAttributes attrs])).Attributes.bind
        (fun m => mapGet m k) = some v) := by
  have happ : ∀ o : SpanOption, applySpanOptions now (opts ++ [o]) =
      o (applySpanOptions now opts) := by
    intro o
    simp [applySpanOptions, List.foldl_append]
  refine ⟨rfl, rfl, hnow, happ, ?_, ?_, ?_⟩
  · intro k
    rw [happ]
    rfl
  · intro t
    rw [happ]
    rfl
  · intro attrs k v hl
    rw [happ]
    show (some (attrs.foldl (fun m kv => mapSet m kv.1 kv.2) _)).bind
      (fun m => mapGet m k) = some v
    rw [Option.some_bind, mapGet_foldl_mapSet, hl]

/-- C4 witness: at clock reading 1 and the empty option list, the default
config comes out; a trailing `WithSpanKind` wins; a later entry for the same
key inside `WithAttributes` overwrites the earlier one. -/
theorem applySpanOptions_builder_witness :
    ((1 : Nat) ≠ 0) ∧
    (applySpanOptions 1 [] =
      { Kind := .internal, Attributes := some [], Timestamp := 1 }) ∧
    ((applySpanOptions 1 ([] ++ [WithSpanKind .server])).Kind = .server) ∧
    ((applySpanOptions 1
        ([] ++ [WithAttributes [("k", .str "a"), ("k", .str "b")]])).Attributes.bind
      (fun m => mapGet m "k") = some (.str "b")) := by
  have h := applySpanOptions_builder 1 (by decide) []
  exact ⟨by decide, h.1, h.2.2.2.2.1 .server,
    h.2.2.2.2.2.2 [("k", .str "a"), ("k", .str "b")] "k" (.str "b") rfl⟩

/-- C10: for spans returned by `Start` of either provider, `span.Context()`
is the context as it stood before `ContextWithSpan` attached the span (for
the no-op provider it is exactly the input context; for the pass-through
provider it is the SDK-extended context), never the context returned by
`Start`; hence `SpanFromContext (span.Context())` yields the span previously
attached to the input context — or `nil` — and never the span itself. -/
theorem span_context_is_preattach (ctx : Ctx) (name : String)
    (opts : List SpanOption) (os : OtelSpan) (now : Nat) :
    ((noopProvider.Start ctx name opts).2.Context = ctx) ∧
    ((noopProvider.Start ctx name opts).1 =
      ContextWithSpan ctx (noopProvider.Start ctx name opts).2) ∧
    ((noopProvider.Start ctx name opts).2.Context ≠
      (noopProvider.Start ctx name opts).1) ∧
    (SpanFromContext (noopProvider.Start ctx name opts).2.Context =
      SpanFromContext ctx) ∧
    (SpanFromContext (noopProvider.Start ctx name opts).2.Context ≠
      some (noopProvider.Start ctx name opts).2) ∧
    ((otlpProvider.Start os now ctx name opts).2.Context =
      Ctx.withValue ctx .otelContextKey (.otelV os)) ∧
    ((otlpProvider.Start os now ctx name opts).1 =
      ContextWithSpan (otlpProvider.Start os now ctx name opts).2.Context
        (otlpProvider.Start os now ctx name opts).2) ∧
    ((otlpProvider.Start os now ctx name opts).2.Context ≠
      (otlpProvider.Start os now ctx name opts).1) ∧
    (SpanFromContext (otlpProvider.Start os now ctx name opts).2.Context =
      SpanFromContext ctx) ∧
    (SpanFromContext (otlpProvider.Start os now ctx name opts).2.Context ≠
      some (otlpProvider.Start os now ctx name opts).2) := by
  refine ⟨rfl, rfl, ?_, rfl, ?_, rfl, rfl, ?_, ?_, ?_⟩
  · show ctx ≠ ContextWithSpan ctx (SpanV.noopSpan ctx)
    intro h
    exact ContextWithSpan_ne ctx (SpanV.noopSpan ctx) h.symm
  · show SpanFromContext ctx ≠ some (SpanV.noopSpan ctx)
    exact SpanFromContext_ne_noopSpan ctx
  · show Ctx.withValue ctx .otelContextKey (.otelV os) ≠
      ContextWithSpan (Ctx.withValue ctx .otelContextKey (.otelV os)) _
    intro h
    exact ContextWithSpan_ne _ _ h.symm
  · show SpanFromContext (Ctx.withValue ctx .otelContextKey (.otelV os)) =
      SpanFromContext ctx
    exact SpanFromContext_withValue_ne ctx _ _ (by intro h; cases h)
  · show SpanFromContext (Ctx.withValue ctx .otelContextKey (.otelV os)) ≠
      some (SpanV.otlpSpan os (Ctx.withValue ctx .otelContextKey (.otelV os)))
    exact SpanFromContext_ne_otlpSpan _ os

/-- C1: `NewTracer` is a three-way switch on the configuration: disabled
configs take the no-op provider with an info log; enabled + provider
`"otlp"` builds the pass-through provider, surfacing any construction
failure as an error with an empty `Result`; enabled + `"noop"` takes the
no-op provider; any other name takes the no-op provider after a warning
naming the unrecognized provider; no non-otlp branch errors. -/
theorem newTracer_selection (cfg : Config) (otlpNew : OtlpNewOutcome) :
    (cfg.Enabled = false →
      NewTracer cfg otlpNew =
        ({ Tracer := some .noop, Provider := some .noop }, none,
          [.info "tracing is disabled, using noop tracer" []])) ∧
    (cfg.Enabled = true → cfg.ProviderName = "otlp" →
      (∀ e, otlpNew = .failed e →
        NewTracer cfg otlpNew = ({ Tracer := none, Provider := none }, some e, [])) ∧
      (otlpNew = .ok →
        NewTracer cfg otlpNew =
          ({ Tracer := some (.otlp cfg), Provider := some (.otlp cfg) }, none, []))) ∧
    (cfg.Enabled = true → cfg.ProviderName = "noop" →
      NewTracer cfg otlpNew =
        ({ Tracer := some .noop, Provider := some .noop }, none, [])) ∧
    (cfg.Enabled = true → cfg.ProviderName ≠ "otlp" → cfg.ProviderName ≠ "noop" →
      NewTracer cfg otlpNew =
        ({ Tracer := some .noop, Provider := some .noop }, none,
          [.warn "unknown tracing provider, using noop"
            [("provider", cfg.ProviderName)]])) := by
  refine ⟨?_, ?_, ?_, ?_⟩
  · intro hE
    simp [NewTracer, hE]
  · intro hE hP
    constructor
    · intro e ho
      simp [NewTracer, hE, hP, ho]
    · intro ho
      simp [NewTracer, hE, hP, ho]
  · intro hE hP
    simp [NewTracer, hE, hP]
  · intro hE hP1 hP2
    simp [NewTracer, hE, hP1, hP2]

/-- C1 witness: each of the four switch branches evaluated at a concrete
configuration. -/
theorem newTracer_selection_witness :
    (NewTracer (Config.mk false "svc" "otlp" 1.0 ⟨"localhost:4317", true, none⟩
        ⟨"e", "h", "p"⟩) .ok =
      ({ Tracer := some .noop, Provider := some .noop }, none,
        [.info "tracing is disabled, using noop tracer" []])) ∧
    (NewTracer (Config.mk true "svc" "otlp" 1.0 ⟨"localhost:4317", true, none⟩
        ⟨"e", "h", "p"⟩) (.failed "exporter down") =
      ({ Tracer := none, Provider := none }, some "exporter down", [])) ∧
    (NewTracer (Config.mk true "svc" "otlp" 1.0 ⟨"localhost:4317", true, none⟩
        ⟨"e", "h", "p"⟩) .ok =
      ({ Tracer := some (.otlp (Config.mk true "svc" "otlp" 1.0
          ⟨"localhost:4317", true, none⟩ ⟨"e", "h", "p"⟩)),
         Provider := some (.otlp (Config.mk true "svc" "otlp" 1.0
          ⟨"localhost:4317", true, none⟩ ⟨"e", "h", "p"⟩)) }, none, [])) ∧
    (NewTracer (Config.mk true "svc" "noop" 1.0 ⟨"localhost:4317", true, none⟩
        ⟨"e", "h", "p"⟩) .ok =
      ({ Tracer := some .noop, Provider := some .noop }, none, [])) ∧
    (NewTracer (Config.mk true "svc" "jaeger" 1.0 ⟨"localhost:4317", true, none⟩
        ⟨"e", "h", "p"⟩) .ok =
      ({ Tracer := some .noop, Provider := some .noop }, none,
        [.warn "unknown tracing provider, using noop" [("provider", "jaeger")]])) := by
  refine ⟨?_, ?_, ?_, ?_, ?_⟩
  · exact (newTracer_selection _ .ok).1 rfl
  · exact ((newTracer_selection _ (.failed "exporter down")).2.1 rfl rfl).1
      "exporter down" rfl
  · exact ((newTracer_selection _ .ok).2.1 rfl rfl).2 rfl
  · exact (newTracer_selection _ .ok).2.2.1 rfl rfl
  · exact (newTracer_selection _ .ok).2.2.2 rfl (by decide) (by decide)

end Tracingx
